import Mathlib

/-!
# Mock market dashboard streaming server: a verification development

This file gives a shallow embedding, in Lean 4, of the core of the streaming
server: the wire protocol codec (`server/src/ws/protocol.ts`, optimized
variant), the event-bus delivery loop (`server/src/bus/eventBus.ts`, which
delegates to Node's `EventEmitter`), the metrics calculator
(`server/src/metrics/stats.ts`), the replay engine
(`server/src/feed/replay.ts`) and the gateway's tick batching
(`server/src/ws/wsGateway.ts`).

Conventions of the embedding:

* JavaScript numbers are modelled as rationals (`ℚ`); `Math.round` is
  `⌊x + 1/2⌋`, which is exactly the JS semantics on finite inputs.
* JSON values are modelled by the inductive `JVal`; the extra constructor
  `JVal.jundefined` stands for JavaScript's `undefined`, which arises from
  out-of-range array indexing and absent object properties (never from
  `JSON.parse` itself).  `JSON.parse`/`JSON.stringify` on well-formed data
  are treated as the identity between strings and `JVal` trees, so the codec
  is analysed at the `JVal` level; an unparseable input string is modelled as
  the `none` case of an `Option JVal`.
* A JavaScript object whose optional field is `undefined` is modelled with
  `Option` on the typed side and with `JVal.jundefined` on the JSON side.
* Timers (`setInterval`/`setTimeout` handles) are modelled as Booleans
  recording whether a timer is armed; a timer callback firing is an explicit
  step of the state machine.
* Exceptions are modelled with `Except`; functions that JavaScript lets
  throw and that the source wraps in `try`/`catch` are modelled totally with
  the caught result inlined.
-/

/-! ## JavaScript numeric primitives -/

/-- Model of JavaScript `Math.round` on rationals: round half towards
positive infinity, i.e. `⌊x + 1/2⌋`. -/
def mathRound (q : ℚ) : ℤ := ⌊q + 1 / 2⌋

/-- Model of `roundPrice` in `protocol.ts`:
`Math.round(value * 1000) / 1000`. -/
def roundPrice (q : ℚ) : ℚ := (mathRound (q * 1000) : ℚ) / 1000

/-- Model of `roundVolume` in `protocol.ts`: `Math.round(value)`. -/
def roundVolume (q : ℚ) : ℚ := (mathRound q : ℚ)

/-! ## Data model -/

/-- Model of the `MarketTick` record from `src/types/market.ts`: one OHLCV
observation with an optional intraday time component.  The price fields
carry a `P` suffix because `open` is a Lean keyword.  An absent `time` or
`openInt` property is `none`. -/
structure MarketTick where
  symbol : String
  date : String
  time : Option String
  openP : ℚ
  highP : ℚ
  lowP : ℚ
  closeP : ℚ
  volume : ℚ
  openInt : Option ℚ
deriving DecidableEq, Repr

/-! ## JSON values -/

/-- Model of a JavaScript value reachable by the codec: the JSON value forms
plus `undefined`. -/
inductive JVal where
  | jundefined : JVal
  | jnull : JVal
  | jbool (b : Bool) : JVal
  | jnum (q : ℚ) : JVal
  | jstr (s : String) : JVal
  | jarr (xs : List JVal) : JVal
  | jobj (fs : List (String × JVal)) : JVal
deriving Repr

/-- Model of JavaScript indexed access `v[i]`: arrays index into their
elements (out of range gives `undefined`), strings index into one-character
strings, and every other value gives `undefined`. -/
def jGet (v : JVal) (i : ℕ) : JVal :=
  match v with
  | .jarr xs => xs.getD i .jundefined
  | .jstr s => if h : i < s.data.length then .jstr (String.mk [s.data.get ⟨i, h⟩]) else .jundefined
  | _ => .jundefined

/-- Model of JavaScript property access `obj.k` on a parsed object: the value
of the last binding of the key (JSON.parse keeps the last duplicate), or
`undefined` when the key is absent. -/
def lookupField (fs : List (String × JVal)) (k : String) : JVal :=
  match fs.reverse.find? (fun p => p.1 = k) with
  | some p => p.2
  | none => .jundefined

/-- Model of the JavaScript `k in obj` test. -/
def hasField (fs : List (String × JVal)) (k : String) : Bool :=
  fs.any (fun p => p.1 = k)

/-- Model of JavaScript falsiness for the values reachable here: `undefined`,
`null`, `false`, `0` and the empty string are falsy. -/
def jFalsy (v : JVal) : Bool :=
  match v with
  | .jundefined => true
  | .jnull => true
  | .jbool b => !b
  | .jnum q => q = 0
  | .jstr s => s = ""
  | .jarr _ => false
  | .jobj _ => false

/-! ## Protocol codec: encoding (`protocol.ts`, optimized variant) -/

/-- Model of `compactTick`: the positional array
`[symbol, date, open, high, low, close, volume, openInt?]`, with prices
rounded to 3 decimals and volumes rounded to integers; slot 7 is present
exactly when `openInt` is defined and `> 0`. -/
def compactTickList (t : MarketTick) : List JVal :=
  [.jstr t.symbol, .jstr t.date,
   .jnum (roundPrice t.openP), .jnum (roundPrice t.highP),
   .jnum (roundPrice t.lowP), .jnum (roundPrice t.closeP),
   .jnum (roundVolume t.volume)] ++
  (match t.openInt with
   | some v => if 0 < v then [.jnum (roundVolume v)] else []
   | none => [])

/-- Model of `createTickMessage`: the envelope `{t: 't', d: compactTick(tick)}`
(as the `JVal` tree that `JSON.stringify` serializes). -/
def createTickMessageJ (t : MarketTick) : JVal :=
  .jobj [("t", .jstr "t"), ("d", .jarr (compactTickList t))]

/-- Model of `createBatchedTickMessage`: the envelope
`{t: 't', d: ticks.map(compactTick)}`. -/
def createBatchedTickMessageJ (ts : List MarketTick) : JVal :=
  .jobj [("t", .jstr "t"), ("d", .jarr (ts.map (fun t => .jarr (compactTickList t))))]

/-! ## Protocol codec: decoding (`parseMessage` in `protocol.ts`) -/

/-- Model of the object produced by `expandTick`, read back as a
`MarketTick`-shaped record: every positional field is whatever JavaScript
value sat at the corresponding index of the payload (possibly `undefined`
when the payload had the wrong arity or shape), and the `time` property —
which `expandTick` never assigns, since the compact format has no slot for
it — always reads back as `undefined`. -/
structure JTick where
  symbol : JVal
  date : JVal
  openP : JVal
  highP : JVal
  lowP : JVal
  closeP : JVal
  volume : JVal
  openInt : JVal
  time : JVal
deriving Repr

/-- Model of `expandTick` applied to an arbitrary payload value (the source
casts before indexing, so any value can arrive here).  The `time` property
of the produced object is never assigned, hence `undefined`. -/
def expandTickJ (v : JVal) : JTick :=
  ⟨jGet v 0, jGet v 1, jGet v 2, jGet v 3, jGet v 4, jGet v 5, jGet v 6, jGet v 7,
   .jundefined⟩

/-- Model of the object produced by `expandMetrics`, with the same
wrong-arity tolerance as `expandTickJ`. -/
structure JMetrics where
  totalTicks : JVal
  totalVolume : JVal
  averagePrice : JVal
  highestPrice : JVal
  lowestPrice : JVal
  priceChange : JVal
  priceChangePercent : JVal
  lastUpdate : JVal
deriving Repr

/-- Model of `expandMetrics` applied to an arbitrary payload value. -/
def expandMetricsJ (v : JVal) : JMetrics :=
  ⟨jGet v 0, jGet v 1, jGet v 2, jGet v 3, jGet v 4, jGet v 5, jGet v 6, jGet v 7⟩

/-- Model of `expandTick` including the JavaScript throw on indexing `null`
or `undefined` (`null[0]` raises a `TypeError`, which `parseMessage`
catches); every other value indexes without throwing. -/
def expandTickE (v : JVal) : Option JTick :=
  match v with
  | .jundefined => none
  | .jnull => none
  | _ => some (expandTickJ v)

/-- Model of `expandMetrics` including the JavaScript throw on indexing
`null` or `undefined`. -/
def expandMetricsE (v : JVal) : Option JMetrics :=
  match v with
  | .jundefined => none
  | .jnull => none
  | _ => some (expandMetricsJ v)

/-- Model of `Array.prototype.map` with a possibly throwing callback:
elements are processed left to right and the first throw aborts the map
(the exception is caught by `parseMessage`). -/
def expandAll (xs : List JVal) : Option (List JTick) :=
  match xs with
  | [] => some []
  | v :: rest =>
    match expandTickE v with
    | none => none
    | some jt =>
      match expandAll rest with
      | none => none
      | some l => some (jt :: l)

/-- Payload of a successfully parsed message.  The `one`/`many` split records
the JavaScript distinction between a single expanded tick object and an array
of expanded tick objects. -/
inductive ParsedData where
  | one (t : JTick) : ParsedData
  | many (ts : List JTick) : ParsedData
  | metricsD (m : JMetrics) : ParsedData
  | snapshotD (ts : List JTick) : ParsedData
  | errorD (v : JVal) : ParsedData
deriving Repr

/-- Result shape of `parseMessage`: `{type, data}`. -/
structure ParsedMsg where
  type : String
  data : ParsedData
deriving Repr

/-- Model of `parseMessage` after `JSON.parse` succeeded, operating on the
parsed value.  Mirrors the source exactly: the whole body sits in a
`try`/`catch` returning `null`; the guard rejects a falsy `t` tag or a
missing `d` key; the `'t'` case requires an array payload and batches iff the
first element is itself an array; the `'s'` case requires an array payload
(`.map` on a non-array throws, caught as `null`); `'m'` and `'e'` accept any
payload, but expanding a `null` metrics payload throws on indexing (caught
as `null`), as does a `null` element inside a batch or snapshot array.
Property access on a non-object primitive yields `undefined` (hence a falsy
tag), and on `null` it throws (caught as `null`); either way a non-object
input returns `none`. -/
def parseMessageJ (v : JVal) : Option ParsedMsg :=
  match v with
  | .jobj fs =>
    let tag := lookupField fs "t"
    if jFalsy tag || !hasField fs "d" then none
    else
      let d := lookupField fs "d"
      match tag with
      | .jstr "t" =>
        match d with
        | .jarr xs =>
          match xs with
          | .jarr _ :: _ =>
            match expandAll xs with
            | some l => some ⟨"tick", .many l⟩
            | none => none
          | _ => some ⟨"tick", .one (expandTickJ (.jarr xs))⟩
        | _ => none
      | .jstr "m" =>
        match expandMetricsE d with
        | some m => some ⟨"metrics", .metricsD m⟩
        | none => none
      | .jstr "s" =>
        match d with
        | .jarr xs =>
          match expandAll xs with
          | some l => some ⟨"snapshot", .snapshotD l⟩
          | none => none
        | _ => none
      | .jstr "e" => some ⟨"error", .errorD d⟩
      | _ => none
  | _ => none

/-- Model of `parseMessage` on a raw input string: `none` stands for a string
`JSON.parse` rejects (the `catch` branch), `some v` for a string parsing to
the value `v`. -/
def parseMessage (o : Option JVal) : Option ParsedMsg :=
  match o with
  | none => none
  | some v => parseMessageJ v

/-- JavaScript object representation of a `MarketTick`, as `expandTick`
would have to reproduce it for a perfect round trip: an absent `openInt` or
`time` reads back as `undefined`, a present one as its value. -/
def toJTick (t : MarketTick) : JTick :=
  ⟨.jstr t.symbol, .jstr t.date, .jnum t.openP, .jnum t.highP, .jnum t.lowP,
   .jnum t.closeP, .jnum t.volume,
   (match t.openInt with
    | some v => .jnum v
    | none => .jundefined),
   match t.time with
   | some s => .jstr s
   | none => .jundefined⟩

/-! ## Event bus (`eventBus.ts`)

The class `EventBus` extends Node's `EventEmitter` and its `emit` is
`super.emit(event, data)` unchanged, so delivery follows the documented
`EventEmitter` semantics: the listeners registered for the event kind are
called synchronously, in registration order, each with the payload; an
exception thrown by a listener propagates out of `emit` at once, so the
remaining listeners are not called.  A listener is modelled as a function
from the payload to `Except String Unit`, where `Except.error` models the
listener throwing. -/

/-- Model of `EventBus.emit` (that is, of `EventEmitter.emit` as inherited
unchanged): run the registered listeners in order on the payload, returning
how many listeners were actually invoked and the exception that escaped the
`emit` call, if any. -/
def emitHandlers {α : Type} (hs : List (α → Except String Unit)) (x : α) :
    ℕ × Option String :=
  match hs with
  | [] => (0, none)
  | h :: rest =>
    match h x with
    | .error e => (1, some e)
    | .ok _ =>
      ((emitHandlers rest x).1 + 1, (emitHandlers rest x).2)

/-! ## Metrics calculator (`stats.ts`) -/

/-- Model of the `MarketMetrics` record from `src/types/market.ts`. -/
structure MarketMetrics where
  totalTicks : ℕ
  totalVolume : ℚ
  averagePrice : ℚ
  highestPrice : ℚ
  lowestPrice : ℚ
  priceChange : ℚ
  priceChangePercent : ℚ
  lastUpdate : String
deriving DecidableEq, Repr

/-- Model of `Math.round(x * 100) / 100`, the 2-decimal display rounding of
`calculateMetrics`. -/
def round2 (q : ℚ) : ℚ := (mathRound (q * 100) : ℚ) / 100

/-- Model of `Math.max(...prices)` for the nonempty lists it is applied to
(on an empty list JavaScript would give `-Infinity`, but the caller guards
emptiness; the `[]` case value is never used). -/
def jsMax (l : List ℚ) : ℚ :=
  match l with
  | [] => 0
  | x :: xs => xs.foldl max x

/-- Model of `Math.min(...prices)`; same remarks as `jsMax`. -/
def jsMin (l : List ℚ) : ℚ :=
  match l with
  | [] => 0
  | x :: xs => xs.foldl min x

/-- Model of `MetricsCalculator.getEmptyMetrics`, with the wall-clock ISO
timestamp passed in as a parameter. -/
def getEmptyMetrics (nowIso : String) : MarketMetrics :=
  ⟨0, 0, 0, 0, 0, 0, 0, nowIso⟩

/-- Model of `MetricsCalculator.calculateMetrics` as a pure function of the
window (the class field `this.ticks`, newest-first) and of the wall-clock
timestamp.  Mirrors the source line by line: empty window short-circuits to
the all-zero snapshot; otherwise the close prices and volumes are reduced,
the oldest (`ticks[ticks.length - 1]?.close ?? 0`) and newest close give the
change, a non-positive base price short-circuits the percent change to `0`,
and every price-derived output is rounded to 2 decimals. -/
def calculateMetrics (nowIso : String) (ticks : List MarketTick) : MarketMetrics :=
  if ticks.length = 0 then getEmptyMetrics nowIso
  else
    let prices := ticks.map (fun t => t.closeP)
    let volumes := ticks.map (fun t => t.volume)
    let totalVolume := volumes.foldl (· + ·) 0
    let averagePrice := prices.foldl (· + ·) 0 / (prices.length : ℚ)
    let highestPrice := jsMax prices
    let lowestPrice := jsMin prices
    let firstPrice := ((ticks.getLast?).map (fun t => t.closeP)).getD 0
    let lastPrice := ((ticks.head?).map (fun t => t.closeP)).getD 0
    let priceChange := lastPrice - firstPrice
    let priceChangePercent := if 0 < firstPrice then priceChange / firstPrice * 100 else 0
    ⟨ticks.length, totalVolume, round2 averagePrice, round2 highestPrice,
     round2 lowestPrice, round2 priceChange, round2 priceChangePercent, nowIso⟩

/-! ## Replay engine (`replay.ts`)

State machine embedding.  The `setInterval` handle is modelled by the
Boolean `intervalId` (armed or not); one firing of the interval callback is
one application of `replayStep`, which does nothing when no timer is armed.
Bus emissions are returned as an explicit event list.  Wall-clock reads
(`new Date()`) and date-string parsing (`new Date(tick.date).getTime()`) are
parameters `now` and `env`. -/

/-- Events the replay engine publishes on the bus. -/
inductive REvent where
  | tickEv (t : Option MarketTick) : REvent
  | errorEv (message code : String) : REvent
  | replayEv (status : String) : REvent
deriving DecidableEq, Repr

/-- Model of the `DataReplay` instance fields (minus the constant
`baseInterval`). -/
structure ReplayState where
  ticks : List MarketTick
  currentIndex : ℕ
  intervalId : Bool
  isPlaying : Bool
  isPaused : Bool
  speedMultiplier : ℚ
  loop : Bool
deriving DecidableEq, Repr

/-- Model of the `ReplayConfig` parameter of `start`; dates are modelled by
their `getTime()` values. -/
structure ReplayConfig where
  speedMultiplier : Option ℚ
  startDate : Option ℤ
  endDate : Option ℤ
  loop : Option Bool
deriving DecidableEq, Repr

/-- Model of `DataReplay.stop`: cancel any armed timer, clear the play and
pause flags, and publish `replay: stopped` (unconditionally, mirroring the
source). -/
def DataReplay.stop (s : ReplayState) : ReplayState × List REvent :=
  ({s with intervalId := false, isPlaying := false, isPaused := false},
   [.replayEv "stopped"])

/-- Shared tail of `playNextTick`: read `this.ticks[this.currentIndex]`
(possibly `undefined`, modelled as `none`), publish it as a `tick` event and
advance the cursor. -/
def DataReplay.emitCurrent (s : ReplayState) : ReplayState × List REvent :=
  ({s with currentIndex := s.currentIndex + 1}, [.tickEv (s.ticks.get? s.currentIndex)])

/-- Model of `DataReplay.playNextTick`: at the end of the dataset either
wrap the cursor to `0` and fall through to the emission (when `loop` is set)
or stop; otherwise emit the tick under the cursor and advance. -/
def DataReplay.playNextTick (s : ReplayState) : ReplayState × List REvent :=
  if s.ticks.length ≤ s.currentIndex then
    if s.loop then DataReplay.emitCurrent {s with currentIndex := 0}
    else DataReplay.stop s
  else DataReplay.emitCurrent s

/-- One firing opportunity of the replay interval timer: the callback runs
`playNextTick` only while the interval is armed. -/
def replayStep (s : ReplayState) : ReplayState × List REvent :=
  if s.intervalId then DataReplay.playNextTick s else (s, [])

/-- Run `n` firing opportunities of the replay timer, collecting the
published events in order. -/
def replayRun : ℕ → ReplayState → ReplayState × List REvent
  | 0, s => (s, [])
  | n + 1, s =>
    ((replayRun n (replayStep s).1).1,
     (replayStep s).2 ++ (replayRun n (replayStep s).1).2)

/-- Model of the date-range filter inside `DataReplay.start`: applied only
when at least one bound is given (`Date` objects are always truthy); an
absent start bound defaults to the epoch (`new Date(0)`), an absent end
bound to the current time (`new Date()`). -/
def dateFilteredTicks (env : String → ℤ) (now : ℤ) (cfg : ReplayConfig)
    (ticks : List MarketTick) : List MarketTick :=
  if cfg.startDate.isSome || cfg.endDate.isSome then
    ticks.filter (fun t =>
      decide (cfg.startDate.getD 0 ≤ env t.date) &&
      decide (env t.date ≤ cfg.endDate.getD now))
  else ticks

/-- Model of `DataReplay.start`.  Mirrors the source order exactly: the
no-data guard, the already-playing guard, then the assignments to
`speedMultiplier` and `loop` (note: these happen before the range check),
then the date filter, the empty-range guard, and finally the dataset
replacement, cursor reset, flag updates, `replay: started` event and timer
arming. -/
def DataReplay.start (env : String → ℤ) (now : ℤ) (cfg : ReplayConfig)
    (s : ReplayState) : ReplayState × List REvent :=
  if s.ticks.length = 0 then
    (s, [.errorEv "No data loaded for replay" "NO_DATA"])
  else if s.isPlaying && !s.isPaused then (s, [])
  else
    let s1 := {s with speedMultiplier := cfg.speedMultiplier.getD 1,
                      loop := cfg.loop.getD false}
    let filtered := dateFilteredTicks env now cfg s1.ticks
    if filtered.length = 0 then
      (s1, [.errorEv "No data in specified date range" "NO_DATA_IN_RANGE"])
    else
      ({s1 with ticks := filtered, currentIndex := 0, isPlaying := true,
                isPaused := false, intervalId := true},
       [.replayEv "started"])

/-- Model of `DataReplay.getAllTicks` (the source returns a fresh copy of
the array; the value is the same list). -/
def DataReplay.getAllTicks (s : ReplayState) : List MarketTick := s.ticks

/-! ## Gateway tick batching (`wsGateway.ts`)

State machine embedding of `handleTick`/`flushTickBuffer`.  The
`setTimeout` handle `batchTimeout` is a Boolean; a step is either a tick
event arriving from the bus or the batch-delay timer firing.  A step returns
the batched-tick broadcasts it performs, each recorded as the list of ticks
in the broadcast batch (in buffer order).  The metrics side effect of
`handleTick` (`metricsCalculator.addTick` plus a `metrics` bus event) is
modelled by the `metricsWindow` field of the state; the metrics broadcast
itself is not part of the batched-tick output stream studied here. -/

/-- Model of the `WSGateway` fields that tick handling touches. -/
structure GwState where
  recentTicks : List MarketTick
  metricsWindow : List MarketTick
  tickBuffer : List MarketTick
  batchTimeout : Bool
deriving DecidableEq, Repr

/-- Model of `WSGateway.flushTickBuffer`: nothing to do on an empty buffer;
otherwise broadcast one batched-tick message with the buffered ticks in
order, clear the buffer and cancel the armed delay timer. -/
def flushTickBuffer (s : GwState) : GwState × List (List MarketTick) :=
  if s.tickBuffer = [] then (s, [])
  else ({s with tickBuffer := [], batchTimeout := false}, [s.tickBuffer])

/-- Model of `WSGateway.handleTick`: prepend to the recent-tick buffer
(cap 1000), feed the metrics window (cap 10000), append to the batch
buffer, then flush when the buffer has reached the batch size 10, else arm
the 50 ms delay timer if it is not armed yet. -/
def handleTick (t : MarketTick) (s : GwState) : GwState × List (List MarketTick) :=
  let s1 : GwState :=
    {s with recentTicks := (t :: s.recentTicks).take 1000,
            metricsWindow := (t :: s.metricsWindow).take 10000,
            tickBuffer := s.tickBuffer ++ [t]}
  if 10 ≤ s1.tickBuffer.length then flushTickBuffer s1
  else if !s1.batchTimeout then ({s1 with batchTimeout := true}, [])
  else (s1, [])

/-- One scheduling step at the gateway: a tick arrival, or the batch-delay
timer firing (which can only happen while the timer is armed). -/
inductive GwStep where
  | arrive (t : MarketTick) : GwStep
  | fire : GwStep
deriving Repr

/-- Run one gateway step. -/
def gwStep (s : GwState) : GwStep → GwState × List (List MarketTick)
  | .arrive t => handleTick t s
  | .fire => if s.batchTimeout then flushTickBuffer s else (s, [])

/-- Run a sequence of gateway steps, collecting the batched-tick broadcasts
in order. -/
def gwRun : List GwStep → GwState → GwState × List (List MarketTick)
  | [], s => (s, [])
  | st :: rest, s =>
    ((gwRun rest (gwStep s st).1).1,
     (gwStep s st).2 ++ (gwRun rest (gwStep s st).1).2)

/-! ## Validity predicates from the claims -/

/-- Validity of a tick in the sense of claim C1: the volume is a
non-negative integer-valued count, and the open interest is absent or a
positive integer-valued count (the data model's constraint). -/
def ValidTick (t : MarketTick) : Prop :=
  (∃ n : ℕ, t.volume = n) ∧
  (t.openInt = none ∨ ∃ n : ℕ, 0 < n ∧ t.openInt = some (n : ℚ))

/-- Prices representable exactly at the wire precision of 3 decimal places.
The encoder rounds prices with `roundPrice`, so only such ticks can round
trip; this is the amendment C1 needs. -/
def PricesAt3dp (t : MarketTick) : Prop :=
  (∃ z : ℤ, t.openP * 1000 = z) ∧ (∃ z : ℤ, t.highP * 1000 = z) ∧
  (∃ z : ℤ, t.lowP * 1000 = z) ∧ (∃ z : ℤ, t.closeP * 1000 = z)

/-! ## Helper lemmas about rounding -/

theorem mathRound_intCast (z : ℤ) : mathRound (z : ℚ) = z := by
  rw [mathRound, Int.floor_int_add]
  norm_num

theorem roundPrice_eq_self {q : ℚ} (h : ∃ z : ℤ, q * 1000 = z) :
    roundPrice q = q := by
  obtain ⟨z, hz⟩ := h
  rw [roundPrice, hz, mathRound_intCast, ← hz]
  field_simp

theorem roundVolume_natCast (n : ℕ) : roundVolume (n : ℚ) = (n : ℚ) := by
  rw [roundVolume, show ((n : ℚ)) = ((n : ℤ) : ℚ) by push_cast; ring,
    mathRound_intCast]

theorem round2_eq_self {q : ℚ} (h : ∃ z : ℤ, q * 100 = z) : round2 q = q := by
  obtain ⟨z, hz⟩ := h
  rw [round2, hz, mathRound_intCast, ← hz]
  field_simp

theorem round2_zero : round2 0 = 0 :=
  round2_eq_self ⟨0, by norm_num⟩

/-- Decoding the compact positional array of a valid 3-decimal tick with no
intraday time component reproduces exactly the JavaScript object of the
original tick. -/
theorem expandTickJ_compactTickList {t : MarketTick} (hval : ValidTick t)
    (h3 : PricesAt3dp t) (ht : t.time = none) :
    expandTickJ (.jarr (compactTickList t)) = toJTick t := by
  obtain ⟨⟨nv, hnv⟩, hoi⟩ := hval
  obtain ⟨ho, hh, hl, hc⟩ := h3
  rcases hoi with hnone | ⟨m, hm, hsome⟩
  · simp only [compactTickList, hnone, ht, List.cons_append, List.nil_append,
      expandTickJ, jGet, toJTick]
    rw [roundPrice_eq_self ho, roundPrice_eq_self hh, roundPrice_eq_self hl,
      roundPrice_eq_self hc, hnv, roundVolume_natCast]
    rfl
  · simp only [compactTickList, hsome, ht, List.cons_append, List.nil_append,
      expandTickJ, jGet, toJTick]
    rw [if_pos (by exact_mod_cast hm), roundPrice_eq_self ho,
      roundPrice_eq_self hh, roundPrice_eq_self hl, roundPrice_eq_self hc,
      hnv, roundVolume_natCast, roundVolume_natCast]
    rfl

/-! ## Claim C1: codec round trip -/

/-- C1 (amended): for a valid tick whose prices are exactly representable
at the wire precision of 3 decimal places and whose optional intraday time
component is absent, decoding the encoded single-tick message yields
exactly the original tick, including the presence or absence of the
open-interest field.  (The claim as frozen is refuted by
`c1_codec_roundtrip_cex` in two independent ways: the encoder rounds prices
to 3 decimals, so a finer price does not survive the round trip; and the
compact format has no slot for the `time` field, so a tick with `time` set
comes back without it.) -/
theorem c1_codec_roundtrip_amended (t : MarketTick) (hval : ValidTick t)
    (h3 : PricesAt3dp t) (ht : t.time = none) :
    parseMessageJ (createTickMessageJ t) = some ⟨"tick", .one (toJTick t)⟩ := by
  rw [show parseMessageJ (createTickMessageJ t) =
      some ⟨"tick", .one (expandTickJ (.jarr (compactTickList t)))⟩ from rfl]
  rw [expandTickJ_compactTickList hval h3 ht]

/-- Witness for C1: a concrete valid time-less tick with 3-decimal prices
and a present open interest round trips. -/
theorem c1_codec_roundtrip_witness :
    parseMessageJ (createTickMessageJ
        ⟨"AAPL", "2020-01-02", none, 3/2, 2, 1, 5/4, 100, some 5⟩) =
      some ⟨"tick", .one (toJTick
        ⟨"AAPL", "2020-01-02", none, 3/2, 2, 1, 5/4, 100, some 5⟩)⟩ :=
  c1_codec_roundtrip_amended _
    ⟨⟨100, by norm_num⟩, Or.inr ⟨5, by norm_num, by norm_num⟩⟩
    ⟨⟨1500, by norm_num⟩, ⟨2000, by norm_num⟩, ⟨1000, by norm_num⟩, ⟨1250, by norm_num⟩⟩
    rfl

/-- Counterexample to C1 as frozen, in both of the ways the code breaks it.
First, a tick that is valid in the claim's sense (integer volume 100, open
interest absent, no time) whose open price `0.0005` is rounded to `0.001`
by the encoder, so the decoded tick differs from the original.  Second, a
valid tick with integer prices but with the optional intraday time set:
the compact wire format carries no time slot, so the decoded tick has an
undefined `time` and again differs from the original. -/
theorem c1_codec_roundtrip_cex :
    (ValidTick ⟨"A", "2020-01-01", none, 1/2000, 2, 1, 1, 100, none⟩ ∧
     parseMessageJ (createTickMessageJ
         ⟨"A", "2020-01-01", none, 1/2000, 2, 1, 1, 100, none⟩) ≠
       some ⟨"tick", .one (toJTick ⟨"A", "2020-01-01", none, 1/2000, 2, 1, 1, 100, none⟩)⟩) ∧
    (ValidTick ⟨"A", "2020-01-01", some "09:30", 1, 1, 1, 1, 100, none⟩ ∧
     PricesAt3dp ⟨"A", "2020-01-01", some "09:30", 1, 1, 1, 1, 100, none⟩ ∧
     parseMessageJ (createTickMessageJ
         ⟨"A", "2020-01-01", some "09:30", 1, 1, 1, 1, 100, none⟩) ≠
       some ⟨"tick", .one (toJTick
         ⟨"A", "2020-01-01", some "09:30", 1, 1, 1, 1, 100, none⟩)⟩) := by
  refine ⟨⟨⟨⟨100, by norm_num⟩, Or.inl rfl⟩, ?_⟩,
    ⟨⟨100, by norm_num⟩, Or.inl rfl⟩,
    ⟨⟨1000, by norm_num⟩, ⟨1000, by norm_num⟩, ⟨1000, by norm_num⟩, ⟨1000, by norm_num⟩⟩,
    ?_⟩
  · intro h
    rw [show parseMessageJ (createTickMessageJ
        ⟨"A", "2020-01-01", none, 1/2000, 2, 1, 1, 100, none⟩) =
        some ⟨"tick", .one (expandTickJ (.jarr (compactTickList
          ⟨"A", "2020-01-01", none, 1/2000, 2, 1, 1, 100, none⟩)))⟩ from rfl] at h
    simp only [compactTickList, expandTickJ, jGet, toJTick, List.cons_append,
      List.nil_append, List.getD_cons_zero, List.getD_cons_succ,
      Option.some.injEq, ParsedMsg.mk.injEq, ParsedData.one.injEq,
      JTick.mk.injEq, JVal.jnum.injEq, true_and, and_true] at h
    have hopen : roundPrice (1/2000) = 1/2000 := h.1
    rw [roundPrice, mathRound] at hopen
    norm_num at hopen
  · intro h
    rw [show parseMessageJ (createTickMessageJ
        ⟨"A", "2020-01-01", some "09:30", 1, 1, 1, 1, 100, none⟩) =
        some ⟨"tick", .one (expandTickJ (.jarr (compactTickList
          ⟨"A", "2020-01-01", some "09:30", 1, 1, 1, 1, 100, none⟩)))⟩ from rfl] at h
    have htime : JVal.jundefined = JVal.jstr "09:30" := by
      have hAB : expandTickJ (.jarr (compactTickList
          ⟨"A", "2020-01-01", some "09:30", 1, 1, 1, 1, 100, none⟩)) =
          toJTick ⟨"A", "2020-01-01", some "09:30", 1, 1, 1, 1, 100, none⟩ := by
        injection h with h1
        injection h1 with h2 h3
        injection h3
      exact congrArg JTick.time hAB
    exact JVal.noConfusion htime

/-! ## Claim C5: single versus batch disambiguation -/

/-- Expanding the encoded batch payload never throws: every element is an
array, so the map over `expandTick` succeeds elementwise. -/
theorem expandAll_compact (ts : List MarketTick) :
    expandAll (ts.map (fun v => JVal.jarr (compactTickList v))) =
      some (ts.map (fun v => expandTickJ (.jarr (compactTickList v)))) := by
  induction ts with
  | nil => rfl
  | cons u us ih => simp [expandAll, expandTickE, ih]

/-- C5: the decoder classifies a tick payload by whether the payload's first
element is itself an array.  Decoding the single-tick encoding of any tick
yields a single expanded tick object (constructor `ParsedData.one`, not a
one-element list), and decoding the batched encoding of any non-empty tick
list yields the list of expanded ticks (constructor `ParsedData.many`), one
per encoded tick. -/
theorem c5_single_vs_batch (t : MarketTick) (ts : List MarketTick)
    (hne : ts ≠ []) :
    parseMessageJ (createTickMessageJ t) =
      some ⟨"tick", .one (expandTickJ (.jarr (compactTickList t)))⟩ ∧
    parseMessageJ (createBatchedTickMessageJ ts) =
      some ⟨"tick", .many (ts.map (fun u => expandTickJ (.jarr (compactTickList u))))⟩ := by
  constructor
  · rfl
  · match ts, hne with
    | u :: us, _ =>
      rw [show parseMessageJ (createBatchedTickMessageJ (u :: us)) =
          (match expandAll ((u :: us).map (fun v => JVal.jarr (compactTickList v))) with
           | some l => some ⟨"tick", ParsedData.many l⟩
           | none => none) from rfl]
      rw [expandAll_compact]

/-- Witness for C5 at a concrete tick and a concrete two-tick batch. -/
theorem c5_single_vs_batch_witness :
    parseMessageJ (createTickMessageJ ⟨"S", "D", none, 1, 1, 1, 1, 1, none⟩) =
      some ⟨"tick", .one (expandTickJ (.jarr (compactTickList ⟨"S", "D", none, 1, 1, 1, 1, 1, none⟩)))⟩ ∧
    parseMessageJ (createBatchedTickMessageJ
        [⟨"S", "D", none, 1, 1, 1, 1, 1, none⟩, ⟨"S", "E", none, 2, 2, 2, 2, 2, none⟩]) =
      some ⟨"tick", .many ([⟨"S", "D", none, 1, 1, 1, 1, 1, none⟩,
        (⟨"S", "E", none, 2, 2, 2, 2, 2, none⟩ : MarketTick)].map
          (fun u => expandTickJ (.jarr (compactTickList u))))⟩ :=
  c5_single_vs_batch ⟨"S", "D", none, 1, 1, 1, 1, 1, none⟩ _ (by simp)

/-! ## Claim C6: decode totality -/

/-- C6 (amended): `parseMessage` returns a null result (never an exception:
the embedding is a total function into `Option`) for every unparseable
input, for any non-object parsed value, for a missing or falsy kind tag, for
a missing payload, and for a tick payload that is not an array; but — contra
the frozen claim — a payload of the wrong arity for its kind is NOT
rejected: the counterexample `c6_decode_totality_cex` shows a 3-element tick
payload decoding to a tick object with undefined fields instead of null. -/
theorem c6_decode_totality_amended (v : JVal) (fs : List (String × JVal)) :
    (parseMessage none = none) ∧
    ((∀ gs, v ≠ .jobj gs) → parseMessageJ v = none) ∧
    (jFalsy (lookupField fs "t") = true → parseMessageJ (.jobj fs) = none) ∧
    (hasField fs "d" = false → parseMessageJ (.jobj fs) = none) ∧
    (lookupField fs "t" = .jstr "t" → (∀ xs, lookupField fs "d" ≠ .jarr xs) →
      parseMessageJ (.jobj fs) = none) := by
  refine ⟨rfl, ?_, ?_, ?_, ?_⟩
  · intro hv
    cases v with
    | jobj gs => exact absurd rfl (hv gs)
    | jundefined => rfl
    | jnull => rfl
    | jbool b => rfl
    | jnum q => rfl
    | jstr s => rfl
    | jarr xs => rfl
  · intro hfal
    simp only [parseMessageJ, hfal, Bool.true_or, if_pos]
  · intro hd
    simp only [parseMessageJ, hd, Bool.not_false, Bool.or_true, if_pos]
  · intro htag hnarr
    simp only [parseMessageJ, htag]
    rcases hh : hasField fs "d" with _ | _ <;> rfl

/-- Witness for C6: concrete rejected inputs — a bare number, an envelope
with no tag, an envelope with no payload, and a tick envelope with a string
payload — all decode to null. -/
theorem c6_decode_totality_witness :
    parseMessageJ (.jnum 7) = none ∧
    parseMessageJ (.jobj [("d", .jarr [])]) = none ∧
    parseMessageJ (.jobj [("t", .jstr "t")]) = none ∧
    parseMessageJ (.jobj [("t", .jstr "t"), ("d", .jstr "oops")]) = none :=
  ⟨(c6_decode_totality_amended (.jnum 7) []).2.1 (fun gs h => JVal.noConfusion h),
   (c6_decode_totality_amended .jnull [("d", .jarr [])]).2.2.1 rfl,
   (c6_decode_totality_amended .jnull [("t", .jstr "t")]).2.2.2.1 rfl,
   (c6_decode_totality_amended .jnull [("t", .jstr "t"), ("d", .jstr "oops")]).2.2.2.2 rfl
     (fun xs h => by simp [lookupField] at h)⟩

/-- Counterexample to C6 as frozen: the structurally invalid tick message
`{t: "t", d: [1, 2, 3]}` has the wrong arity for a tick (7 or 8 elements),
yet `parseMessage` does not return null: it returns a tick object whose
missing fields are all `undefined`. -/
theorem c6_decode_totality_cex :
    parseMessageJ (.jobj [("t", .jstr "t"), ("d", .jarr [.jnum 1, .jnum 2, .jnum 3])]) =
      some ⟨"tick", .one ⟨.jnum 1, .jnum 2, .jnum 3, .jundefined, .jundefined, .jundefined, .jundefined, .jundefined, .jundefined⟩⟩ :=
  rfl

/-! ## Claim C4: empty-window metrics policy -/

/-- C4: on an empty window `calculateMetrics` returns the all-zero snapshot
(every numeric field zero), and on any non-empty window whose oldest tick
has close price zero the percent-change field is zero — the zero base price
never produces a division error (the embedding is total) nor a nonzero
artifact. -/
theorem c4_empty_window_metrics (nowIso : String) (ticks : List MarketTick)
    (tl : MarketTick) :
    (calculateMetrics nowIso [] = getEmptyMetrics nowIso ∧
     (getEmptyMetrics nowIso).totalTicks = 0 ∧
     (getEmptyMetrics nowIso).totalVolume = 0 ∧
     (getEmptyMetrics nowIso).averagePrice = 0 ∧
     (getEmptyMetrics nowIso).highestPrice = 0 ∧
     (getEmptyMetrics nowIso).lowestPrice = 0 ∧
     (getEmptyMetrics nowIso).priceChange = 0 ∧
     (getEmptyMetrics nowIso).priceChangePercent = 0) ∧
    (ticks ≠ [] → ticks.getLast? = some tl → tl.closeP = 0 →
      (calculateMetrics nowIso ticks).priceChangePercent = 0) := by
  refine ⟨⟨rfl, rfl, rfl, rfl, rfl, rfl, rfl, rfl⟩, ?_⟩
  intro hne hlast hcp
  simp only [calculateMetrics]
  rw [if_neg (by simpa [List.length_eq_zero] using hne)]
  simp only [hlast, Option.map_some', Option.getD_some, hcp, lt_self_iff_false,
    if_false]
  exact round2_zero

/-- Witness for C4: a two-tick window, newest close 5 and oldest close 0,
yields percent change 0. -/
theorem c4_empty_window_metrics_witness :
    (calculateMetrics "T" [⟨"S", "D2", none, 1, 1, 1, 5, 1, none⟩,
      ⟨"S", "D1", none, 1, 1, 1, 0, 1, none⟩]).priceChangePercent = 0 :=
  (c4_empty_window_metrics "T" [⟨"S", "D2", none, 1, 1, 1, 5, 1, none⟩,
      ⟨"S", "D1", none, 1, 1, 1, 0, 1, none⟩] ⟨"S", "D1", none, 1, 1, 1, 0, 1, none⟩).2
    (by simp) rfl rfl

/-! ## Claim C2: event bus fault isolation -/

/-- Delivery when no listener throws: every listener is invoked, in order,
and nothing escapes the emit call. -/
theorem emitHandlers_all_ok {α : Type} (hs : List (α → Except String Unit))
    (x : α) (hall : ∀ g ∈ hs, g x = .ok ()) :
    emitHandlers hs x = (hs.length, none) := by
  induction hs with
  | nil => rfl
  | cons g rest ih =>
    have hg : g x = .ok () := hall g (List.mem_cons_self g rest)
    have hr := ih (fun g' hg' => hall g' (List.mem_cons_of_mem g hg'))
    simp [emitHandlers, hg, hr]

/-- C2 (amended): `EventBus.emit` (Node's `EventEmitter.emit`, inherited
unchanged) delivers the payload to the registered listeners in registration
order, but it does NOT catch listener exceptions: when every listener before
`h` succeeds and `h` throws, exactly the listeners up to and including `h`
are invoked (those registered after `h` are skipped) and the exception
escapes the emit call.  When no listener throws, every listener is invoked.
The frozen claim (exception caught, later handlers still invoked, nothing
propagates) is refuted at a concrete input by
`c2_bus_fault_isolation_cex`. -/
theorem c2_bus_fault_isolation_amended {α : Type}
    (hs pre rest : List (α → Except String Unit)) (h : α → Except String Unit)
    (x : α) (e : String) :
    ((∀ g ∈ hs, g x = .ok ()) → emitHandlers hs x = (hs.length, none)) ∧
    ((∀ g ∈ pre, g x = .ok ()) → h x = .error e →
      emitHandlers (pre ++ h :: rest) x = (pre.length + 1, some e)) := by
  refine ⟨emitHandlers_all_ok hs x, ?_⟩
  intro hpre hraise
  induction pre with
  | nil => simp [emitHandlers, hraise]
  | cons g pre' ih =>
    have hg : g x = .ok () := hpre g (List.mem_cons_self g pre')
    have hr := ih (fun g' hg' => hpre g' (List.mem_cons_of_mem g hg'))
    simp [List.cons_append, emitHandlers, hg, hr]

/-- Witness for C2: with a throwing first listener and a succeeding second
listener, only one listener runs and the exception escapes. -/
theorem c2_bus_fault_isolation_witness :
    emitHandlers [fun _ => (Except.error "boom" : Except String Unit),
      fun _ => Except.ok ()] () = (0 + 1, some "boom") :=
  (c2_bus_fault_isolation_amended []
    [] [fun _ => Except.ok ()] (fun _ => Except.error "boom") () "boom").2
    (by intro g hg; simp at hg) rfl

/-- Counterexample to C2 as frozen: publishing to two listeners where the
first throws invokes only 1 of the 2 listeners and lets the exception
escape the emit call — not `(2, none)` as the claim would require. -/
theorem c2_bus_fault_isolation_cex :
    emitHandlers [fun _ => (Except.error "boom" : Except String Unit),
      fun _ => Except.ok ()] () = (1, some "boom") ∧
    ((1 : ℕ), some "boom") ≠ ((2 : ℕ), (none : Option String)) := by
  constructor
  · rfl
  · simp

/-! ## Replay engine claims -/

/-- Once the interval timer is cancelled, further firing opportunities do
nothing and emit nothing. -/
theorem replayRun_inactive (k : ℕ) (s : ReplayState) (h : s.intervalId = false) :
    replayRun k s = (s, []) := by
  induction k with
  | zero => rfl
  | succ n ih =>
    have hs : replayStep s = (s, []) := by simp [replayStep, h]
    simp [replayRun, hs, ih]

/-- C8: starting the engine with `loop = false` over a 3-tick dataset and
letting the timer fire any number of times at least 4 publishes exactly the
3 ticks in dataset order followed by `replay: stopped`, and nothing further
— in particular no 4th tick — no matter how many more firing opportunities
follow.  The start call itself publishes only `replay: started`. -/
theorem c8_replay_no_loop_three_ticks (env : String → ℤ) (now : ℤ)
    (t1 t2 t3 : MarketTick) (k : ℕ) :
    (DataReplay.start env now ⟨none, none, none, some false⟩
        ⟨[t1, t2, t3], 0, false, false, false, 1, false⟩).2 = [.replayEv "started"] ∧
    replayRun (k + 4) (DataReplay.start env now ⟨none, none, none, some false⟩
        ⟨[t1, t2, t3], 0, false, false, false, 1, false⟩).1 =
      (⟨[t1, t2, t3], 3, false, false, false, 1, false⟩,
       [.tickEv (some t1), .tickEv (some t2), .tickEv (some t3),
        .replayEv "stopped"]) := by
  have hstart : DataReplay.start env now ⟨none, none, none, some false⟩
      ⟨[t1, t2, t3], 0, false, false, false, 1, false⟩ =
      (⟨[t1, t2, t3], 0, true, true, false, 1, false⟩, [.replayEv "started"]) := rfl
  refine ⟨by rw [hstart], ?_⟩
  rw [hstart]
  have e1 : replayStep ⟨[t1, t2, t3], 0, true, true, false, 1, false⟩ =
      (⟨[t1, t2, t3], 1, true, true, false, 1, false⟩, [.tickEv (some t1)]) := rfl
  have e2 : replayStep ⟨[t1, t2, t3], 1, true, true, false, 1, false⟩ =
      (⟨[t1, t2, t3], 2, true, true, false, 1, false⟩, [.tickEv (some t2)]) := rfl
  have e3 : replayStep ⟨[t1, t2, t3], 2, true, true, false, 1, false⟩ =
      (⟨[t1, t2, t3], 3, true, true, false, 1, false⟩, [.tickEv (some t3)]) := rfl
  have e4 : replayStep ⟨[t1, t2, t3], 3, true, true, false, 1, false⟩ =
      (⟨[t1, t2, t3], 3, false, false, false, 1, false⟩, [.replayEv "stopped"]) := rfl
  rw [show k + 4 = k + 1 + 1 + 1 + 1 from rfl]
  simp only [replayRun, e1, e2, e3, e4]
  rw [replayRun_inactive k _ rfl]
  simp

/-- C9 (amended): calling `stop` on an already stopped engine leaves the
state unchanged, but it is not free of observable effect: the source
publishes `replay: stopped` unconditionally, so a second stop publishes the
status event again.  The frozen claim (no publication at all) is refuted by
`c9_stop_idempotent_cex`. -/
theorem c9_stop_idempotent_amended (s : ReplayState) (h1 : s.intervalId = false)
    (h2 : s.isPlaying = false) (h3 : s.isPaused = false) :
    DataReplay.stop s = (s, [.replayEv "stopped"]) := by
  cases s
  simp_all [DataReplay.stop]

/-- Witness for C9: stopping a concrete already-stopped engine returns the
same state and one `replay: stopped` event. -/
theorem c9_stop_idempotent_witness :
    DataReplay.stop ⟨[], 0, false, false, false, 1, false⟩ =
      (⟨[], 0, false, false, false, 1, false⟩, [.replayEv "stopped"]) :=
  c9_stop_idempotent_amended ⟨[], 0, false, false, false, 1, false⟩ rfl rfl rfl

/-- Counterexample to C9 as frozen: stopping an engine that is already
stopped (no timer armed, not playing, not paused) still publishes an event,
so the call is observable — not a no-op. -/
theorem c9_stop_idempotent_cex :
    (DataReplay.stop ⟨[], 0, false, false, false, 1, false⟩).2 ≠ [] := by
  simp [DataReplay.stop]

/-- C3 (amended): a `start` rejected for a configuration error publishes
exactly one `error` event and nothing else, and aborts; with no data loaded
the state is exactly the prior state, but — contra the frozen claim — in
the empty-date-range case the `speedMultiplier` and `loop` fields have
already been overwritten with the config values by the time the range check
runs, so they are not restored (refuted at a concrete input by
`c3_start_error_state_cex`).  All other state (dataset, cursor, play/pause
flags, timer) is unchanged in both cases.  (Both cases assume the engine is
not in the playing-and-not-paused state, where `start` instead returns
silently.) -/
theorem c3_start_error_state_amended (env : String → ℤ) (now : ℤ)
    (cfg : ReplayConfig) (s : ReplayState) :
    (s.ticks = [] → DataReplay.start env now cfg s =
      (s, [.errorEv "No data loaded for replay" "NO_DATA"])) ∧
    (s.ticks ≠ [] → (s.isPlaying && !s.isPaused) = false →
      dateFilteredTicks env now cfg s.ticks = [] →
      DataReplay.start env now cfg s =
        ({s with speedMultiplier := cfg.speedMultiplier.getD 1,
                 loop := cfg.loop.getD false},
         [.errorEv "No data in specified date range" "NO_DATA_IN_RANGE"])) := by
  constructor
  · intro h
    simp [DataReplay.start, h]
  · intro hne hplay hfil
    cases s with
    | mk tks ci iv ip ips sm lp =>
      simp only [DataReplay.start]
      rw [if_neg (by simpa [List.length_eq_zero] using hne)]
      simp only at hplay
      rw [if_neg (by simp [hplay])]
      simp only at hfil
      simp [hfil]

/-- Witness for C3: a concrete empty-dataset start publishes `NO_DATA` and
keeps the state; a concrete empty-range start publishes `NO_DATA_IN_RANGE`
and keeps everything except the speed and loop configuration fields. -/
theorem c3_start_error_state_witness :
    (DataReplay.start (fun _ => 100) 300 ⟨some 2, some 200, none, none⟩
        ⟨[], 0, false, false, false, 1, false⟩ =
      (⟨[], 0, false, false, false, 1, false⟩,
       [.errorEv "No data loaded for replay" "NO_DATA"])) ∧
    (DataReplay.start (fun _ => 100) 300 ⟨some 2, some 200, none, none⟩
        ⟨[⟨"X", "D", none, 1, 1, 1, 1, 1, none⟩], 0, false, false, false, 1, false⟩ =
      (⟨[⟨"X", "D", none, 1, 1, 1, 1, 1, none⟩], 0, false, false, false, 2, false⟩,
       [.errorEv "No data in specified date range" "NO_DATA_IN_RANGE"])) :=
  ⟨(c3_start_error_state_amended (fun _ => 100) 300 ⟨some 2, some 200, none, none⟩
      ⟨[], 0, false, false, false, 1, false⟩).1 rfl,
   (c3_start_error_state_amended (fun _ => 100) 300 ⟨some 2, some 200, none, none⟩
      ⟨[⟨"X", "D", none, 1, 1, 1, 1, 1, none⟩], 0, false, false, false, 1, false⟩).2
     (by simp) rfl rfl⟩

/-- Counterexample to C3 as frozen: starting with a date filter whose subset
is empty does publish the error event, but the state is NOT exactly the
prior state — the speed multiplier has been overwritten (1 became 2). -/
theorem c3_start_error_state_cex :
    (DataReplay.start (fun _ => 100) 300 ⟨some 2, some 200, none, none⟩
        ⟨[⟨"X", "D", none, 1, 1, 1, 1, 1, none⟩], 0, false, false, false, 1, false⟩).2 =
      [.errorEv "No data in specified date range" "NO_DATA_IN_RANGE"] ∧
    (DataReplay.start (fun _ => 100) 300 ⟨some 2, some 200, none, none⟩
        ⟨[⟨"X", "D", none, 1, 1, 1, 1, 1, none⟩], 0, false, false, false, 1, false⟩).1 ≠
      ⟨[⟨"X", "D", none, 1, 1, 1, 1, 1, none⟩], 0, false, false, false, 1, false⟩ := by
  constructor
  · rfl
  · intro h
    have h2 : (⟨[⟨"X", "D", none, 1, 1, 1, 1, 1, none⟩], 0, false, false, false, 2, false⟩ :
        ReplayState) = ⟨[⟨"X", "D", none, 1, 1, 1, 1, 1, none⟩], 0, false, false, false, 1, false⟩ := h
    have h3 : (2 : ℚ) = 1 := congrArg ReplayState.speedMultiplier h2
    norm_num at h3

/-- C10: starting with a date-range bound whose filtered subset is non-empty
replaces the loaded dataset with that subset — `getAllTicks` then returns
exactly the in-range ticks — and any later `start` without date bounds never
changes the dataset again, so only the narrowed subset can ever be replayed
until new data is loaded; the excluded ticks are gone from the state. -/
theorem c10_date_filter_narrows (env env2 : String → ℤ) (now now2 : ℤ)
    (cfg cfg2 : ReplayConfig) (s : ReplayState) (hne : s.ticks ≠ [])
    (hplay : (s.isPlaying && !s.isPaused) = false)
    (hfne : dateFilteredTicks env now cfg s.ticks ≠ []) :
    DataReplay.getAllTicks (DataReplay.start env now cfg s).1 =
      dateFilteredTicks env now cfg s.ticks ∧
    (cfg2.startDate = none → cfg2.endDate = none → ∀ s2 : ReplayState,
      (DataReplay.start env2 now2 cfg2 s2).1.ticks = s2.ticks) := by
  constructor
  · cases s with
    | mk tks ci iv ip ips sm lp =>
      simp only [DataReplay.start]
      rw [if_neg (by simpa [List.length_eq_zero] using hne)]
      simp only at hplay hfne
      rw [if_neg (by simp [hplay])]
      rw [if_neg (by simpa [List.length_eq_zero] using hfne)]
      rfl
  · intro h1 h2 s2
    cases s2 with
    | mk tks ci iv ip ips sm lp =>
      simp only [DataReplay.start, dateFilteredTicks, h1, h2, Option.isSome_none,
        Bool.or_self]
      split_ifs <;> first | rfl | contradiction

/-- Witness for C10: a two-tick dataset with dates mapping to times 1 and
20; the bound `[0, 10]` keeps only the first tick, which is exactly what
`getAllTicks` reports afterwards, and a boundless restart keeps the
narrowed dataset. -/
theorem c10_date_filter_narrows_witness :
    DataReplay.getAllTicks ((DataReplay.start (fun d => if d = "A" then 1 else 20) 99
        ⟨none, some 0, some 10, none⟩
        ⟨[⟨"S", "A", none, 1, 1, 1, 1, 1, none⟩, ⟨"S", "B", none, 2, 2, 2, 2, 2, none⟩],
         0, false, false, false, 1, false⟩).1) =
      dateFilteredTicks (fun d => if d = "A" then 1 else 20) 99
        ⟨none, some 0, some 10, none⟩
        [⟨"S", "A", none, 1, 1, 1, 1, 1, none⟩, ⟨"S", "B", none, 2, 2, 2, 2, 2, none⟩] ∧
    (∀ s2 : ReplayState, (DataReplay.start (fun _ => 0) 0 ⟨some 3, none, none, some true⟩
        s2).1.ticks = s2.ticks) := by
  have h := c10_date_filter_narrows (fun d => if d = "A" then 1 else 20)
    (fun _ => 0) 99 0 ⟨none, some 0, some 10, none⟩ ⟨some 3, none, none, some true⟩
    ⟨[⟨"S", "A", none, 1, 1, 1, 1, 1, none⟩, ⟨"S", "B", none, 2, 2, 2, 2, 2, none⟩],
     0, false, false, false, 1, false⟩
    (by simp) rfl (by simp [dateFilteredTicks, List.filter])
  exact ⟨h.1, h.2 rfl rfl⟩

/-! ## Gateway batching claim (C7) -/

/-- A tick arrival that leaves the buffer under the batch size broadcasts
nothing, appends the tick, and leaves the delay timer armed. -/
theorem handleTick_small (t : MarketTick) (s : GwState)
    (h : s.tickBuffer.length ≤ 8) :
    (handleTick t s).2 = [] ∧
    (handleTick t s).1.tickBuffer = s.tickBuffer ++ [t] ∧
    (handleTick t s).1.batchTimeout = true := by
  simp only [handleTick]
  rw [if_neg (by simp [List.length_append]; omega)]
  by_cases hbt : s.batchTimeout
  · rw [if_neg (by simp [hbt])]
    simp [hbt]
  · rw [if_pos (by simp [hbt])]
    simp

/-- The tick arrival that fills the buffer to the batch size 10 flushes at
once: exactly one broadcast containing the buffered ticks in arrival order,
and an empty buffer with a disarmed timer afterwards. -/
theorem handleTick_full (t : MarketTick) (s : GwState)
    (h : s.tickBuffer.length = 9) :
    handleTick t s =
      ({s with recentTicks := (t :: s.recentTicks).take 1000,
               metricsWindow := (t :: s.metricsWindow).take 10000,
               tickBuffer := [], batchTimeout := false},
       [s.tickBuffer ++ [t]]) := by
  simp only [handleTick, flushTickBuffer]
  rw [if_pos (by simp [List.length_append, h])]
  rw [if_neg (by simp)]

/-- Arrivals that keep the buffer under the batch size broadcast nothing,
accumulate in order, and leave the delay timer armed (once at least one
tick has arrived). -/
theorem gw_fill (L : List MarketTick) :
    ∀ s : GwState, s.tickBuffer.length + L.length ≤ 9 →
      (gwRun (L.map .arrive) s).2 = [] ∧
      (gwRun (L.map .arrive) s).1.tickBuffer = s.tickBuffer ++ L ∧
      (gwRun (L.map .arrive) s).1.batchTimeout = (s.batchTimeout || !L.isEmpty) := by
  induction L with
  | nil =>
    intro s h
    simp [gwRun]
  | cons t L' ih =>
    intro s h
    simp only [List.length_cons] at h
    obtain ⟨ho, hbuf, hbt⟩ := handleTick_small t s (by omega)
    have ih' := ih (handleTick t s).1
      (by rw [hbuf]; simp [List.length_append]; omega)
    simp only [List.map_cons, gwRun, gwStep]
    refine ⟨?_, ?_, ?_⟩
    · rw [ho, ih'.1]
      rfl
    · rw [ih'.2.1, hbuf]
      simp
    · rw [ih'.2.2, hbt]
      simp

/-- From a buffer at distance exactly 10 from the batch size, a burst of
arrivals produces exactly one broadcast, containing the prior buffer
followed by the burst, and leaves the buffer empty. -/
theorem gw_flush_ten (L : List MarketTick) :
    ∀ s : GwState, s.tickBuffer.length + L.length = 10 → L ≠ [] →
      (gwRun (L.map .arrive) s).2 = [s.tickBuffer ++ L] ∧
      (gwRun (L.map .arrive) s).1.tickBuffer = [] := by
  induction L with
  | nil =>
    intro s h hL
    exact absurd rfl hL
  | cons t L' ih =>
    intro s h hL
    simp only [List.length_cons] at h
    rcases L' with _ | ⟨u, L''⟩
    · have h9 : s.tickBuffer.length = 9 := by simpa using h
      simp only [List.map_cons, List.map_nil, gwRun, gwStep, handleTick_full t s h9]
      simp
    · obtain ⟨ho, hbuf, _⟩ := handleTick_small t s
        (by simp only [List.length_cons] at h; omega)
      have ih' := ih (handleTick t s).1
        (by rw [hbuf]
            simp only [List.length_append, List.length_singleton,
              List.length_cons, List.length_nil] at h ⊢
            omega)
        (by simp)
      have hg : gwRun (List.map GwStep.arrive (t :: u :: L'')) s =
          ((gwRun (List.map GwStep.arrive (u :: L'')) (handleTick t s).1).1,
           (handleTick t s).2 ++
             (gwRun (List.map GwStep.arrive (u :: L'')) (handleTick t s).1).2) := rfl
      rw [hg]
      refine ⟨?_, ih'.2⟩
      rw [ho, ih'.1, hbuf]
      simp

/-- One gateway step keeps the pending batch buffer strictly under the
batch size. -/
theorem gwStep_inv (s : GwState) (st : GwStep) (h : s.tickBuffer.length ≤ 9) :
    (gwStep s st).1.tickBuffer.length ≤ 9 := by
  cases st with
  | arrive t =>
    simp only [gwStep, handleTick, flushTickBuffer]
    by_cases hfull : 10 ≤ (s.tickBuffer ++ [t]).length
    · rw [if_pos (by simpa using hfull)]
      rw [if_neg (by simp)]
      simp
    · rw [if_neg (by simpa using hfull)]
      simp only [List.length_append, List.length_singleton] at hfull
      split_ifs <;> simp [List.length_append] <;> omega
  | fire =>
    simp only [gwStep, flushTickBuffer]
    split_ifs <;> simp_all

/-- Any run of gateway steps keeps the pending batch buffer strictly under
the batch size. -/
theorem gwRun_inv (steps : List GwStep) :
    ∀ s : GwState, s.tickBuffer.length ≤ 9 →
      (gwRun steps s).1.tickBuffer.length ≤ 9 := by
  induction steps with
  | nil => intro s h; exact h
  | cons st rest ih =>
    intro s h
    exact ih _ (gwStep_inv s st h)

/-- Running a concatenation of step lists runs them in sequence. -/
theorem gwRun_append (a b : List GwStep) :
    ∀ s : GwState, gwRun (a ++ b) s =
      ((gwRun b (gwRun a s).1).1, (gwRun a s).2 ++ (gwRun b (gwRun a s).1).2) := by
  induction a with
  | nil => intro s; simp [gwRun]
  | cons st rest ih =>
    intro s
    simp [gwRun, ih, List.append_assoc]

/-- C7: starting from an empty pending batch buffer, (i) a burst of exactly
10 tick arrivals produces exactly one batched-tick broadcast, containing
exactly those 10 ticks in arrival order, the 10th arrival triggering it
immediately, and leaves the buffer empty; (ii) between 1 and 9 arrivals
followed by the 50 ms delay-timer firing produce exactly one broadcast of
exactly those ticks and leave the buffer empty; and (iii) after any
sequence of steps whatsoever the buffer never holds 10 or more ticks. -/
theorem c7_gateway_batch_flush (s : GwState) (L : List MarketTick)
    (steps : List GwStep) (h0 : s.tickBuffer = []) :
    (L.length = 10 →
      (gwRun (L.map .arrive) s).2 = [L] ∧
      (gwRun (L.map .arrive) s).1.tickBuffer = []) ∧
    (1 ≤ L.length → L.length ≤ 9 →
      (gwRun (L.map .arrive ++ [.fire]) s).2 = [L] ∧
      (gwRun (L.map .arrive ++ [.fire]) s).1.tickBuffer = []) ∧
    (gwRun steps s).1.tickBuffer.length ≤ 9 := by
  refine ⟨?_, ?_, ?_⟩
  · intro hlen
    have h := gw_flush_ten L s (by rw [h0]; simpa using hlen)
      (by intro hL; rw [hL] at hlen; simp at hlen)
    rw [h0] at h
    simpa using h
  · intro h1 h9
    have hL : L ≠ [] := by
      intro hL
      rw [hL] at h1
      simp at h1
    have hfill := gw_fill L s (by rw [h0]; simpa using h9)
    have hbt : (gwRun (L.map .arrive) s).1.batchTimeout = true := by
      rw [hfill.2.2]
      simp [List.isEmpty_eq_true, hL]
    have hbuf : (gwRun (L.map .arrive) s).1.tickBuffer = L := by
      rw [hfill.2.1, h0]
      simp
    rw [gwRun_append]
    have hfire : gwRun [.fire] (gwRun (L.map .arrive) s).1 =
        (({(gwRun (L.map .arrive) s).1 with tickBuffer := [], batchTimeout := false}),
         [L]) := by
      simp only [gwRun, gwStep, flushTickBuffer, hbt, if_pos]
      rw [if_neg (by rw [hbuf]; exact hL)]
      rw [hbuf]
      simp
    rw [hfire, hfill.1]
    simp
  · exact gwRun_inv steps s (by simp [h0])

/-- Witness for C7: ten arrivals from the initial state broadcast one batch
of the ten ticks; three arrivals plus the timer broadcast one batch of the
three ticks; the buffer stays under 10 across a mixed run. -/
theorem c7_gateway_batch_flush_witness :
    ((gwRun ((List.replicate 10 (⟨"S", "D", none, 1, 1, 1, 1, 1, none⟩ : MarketTick)).map
        .arrive) ⟨[], [], [], false⟩).2 = [List.replicate 10 ⟨"S", "D", none, 1, 1, 1, 1, 1, none⟩] ∧
      (gwRun ((List.replicate 10 (⟨"S", "D", none, 1, 1, 1, 1, 1, none⟩ : MarketTick)).map
        .arrive) ⟨[], [], [], false⟩).1.tickBuffer = []) ∧
    ((gwRun ((List.replicate 3 (⟨"S", "D", none, 1, 1, 1, 1, 1, none⟩ : MarketTick)).map
        .arrive ++ [.fire]) ⟨[], [], [], false⟩).2 =
        [List.replicate 3 ⟨"S", "D", none, 1, 1, 1, 1, 1, none⟩] ∧
      (gwRun ((List.replicate 3 (⟨"S", "D", none, 1, 1, 1, 1, 1, none⟩ : MarketTick)).map
        .arrive ++ [.fire]) ⟨[], [], [], false⟩).1.tickBuffer = []) ∧
    (gwRun [.arrive ⟨"S", "D", none, 1, 1, 1, 1, 1, none⟩, .fire]
      ⟨[], [], [], false⟩).1.tickBuffer.length ≤ 9 :=
  ⟨(c7_gateway_batch_flush ⟨[], [], [], false⟩
      (List.replicate 10 ⟨"S", "D", none, 1, 1, 1, 1, 1, none⟩) [] rfl).1 (by simp),
   (c7_gateway_batch_flush ⟨[], [], [], false⟩
      (List.replicate 3 ⟨"S", "D", none, 1, 1, 1, 1, 1, none⟩) [] rfl).2.1
     (by simp) (by simp),
   (c7_gateway_batch_flush ⟨[], [], [], false⟩ []
      [.arrive ⟨"S", "D", none, 1, 1, 1, 1, 1, none⟩, .fire] rfl).2.2⟩
